import Mathlib

/-!
# NboxCLI entry synchronization and bulk import: a shallow embedding

This file embeds the core logic of the NboxCLI command-line client
(`nbox_cli/cli.py` and `nbox_cli/client.py`) in Lean and proves the
specified properties of the key normalizer, the two format parsers
(structured list and dotenv), the diff/changeset builder and the import
orchestrator.

Strings are modelled as `List Char`.  Python's `str.lower` and `str.strip`
are modelled on ASCII characters (the keys and values the tool handles are
ASCII); `str.split(sep)`, `str.split(sep, 1)`, `str.replace`, `str.lstrip`,
`str.rstrip` and `str.join` are modelled exactly.  Remote state is an
association list from entry key to the entry's stored value; the network,
terminal rendering and the interactive prompt are external collaborators,
so runs are modelled as pure functions that also return the trace of API
calls and user-facing messages they would perform, in order.
-/

/-! ## Python string primitives -/

/-- Python `str.lower` on one character (ASCII range, as used by the CLI's
keys): uppercase `A`–`Z` (codepoints 65–90) map 32 up, all else fixed. -/
def lowerChar (c : Char) : Char :=
  if 65 ≤ c.toNat ∧ c.toNat ≤ 90 then Char.ofNat (c.toNat + 32) else c

/-- Python `str.lower` on a string. -/
def pyLower (s : List Char) : List Char := s.map lowerChar

/-- Python whitespace test for `str.strip()` (ASCII whitespace:
space, tab, newline, carriage return, vertical tab, form feed). -/
def isPyWs (c : Char) : Bool :=
  c = ' ' || c = '\t' || c = '\n' || c = '\r' || c = '\x0b' || c = '\x0c'

/-- Python `str.strip()`: drop whitespace from both ends. -/
def pyStrip (s : List Char) : List Char :=
  ((s.dropWhile isPyWs).reverse.dropWhile isPyWs).reverse

/-- Python `str.lstrip("/")`: drop leading slashes. -/
def lstripSlash (s : List Char) : List Char := s.dropWhile (fun c => c == '/')

/-- Python `str.rstrip("/")`: drop trailing slashes. -/
def rstripSlash (s : List Char) : List Char :=
  (s.reverse.dropWhile (fun c => c == '/')).reverse

/-- One character of Python `str.replace("_", "-")`. -/
def underToDashChar (c : Char) : Char := if c = '_' then '-' else c

/-- Python `str.replace("_", "-")` (single-character pattern, so charwise). -/
def underToDash (s : List Char) : List Char := s.map underToDashChar

/-- One character of Python `str.replace("-", "_")`. -/
def dashToUnderChar (c : Char) : Char := if c = '-' then '_' else c

/-- Python `str.replace("-", "_")` (single-character pattern, so charwise). -/
def dashToUnder (s : List Char) : List Char := s.map dashToUnderChar

/-- Python `str.split(sep)` for a one-character separator: always returns at
least one piece; `"".split(sep) == [""]`. -/
def splitOnChar (sep : Char) : List Char → List (List Char)
  | [] => [[]]
  | c :: rest =>
    match splitOnChar sep rest with
    | [] => [[]]
    | p :: ps => if c = sep then [] :: p :: ps else (c :: p) :: ps

/-- Python `sep.join(pieces)` for a one-character separator. -/
def joinChar (sep : Char) : List (List Char) → List Char
  | [] => []
  | [p] => p
  | p :: ps => p ++ sep :: joinChar sep ps

/-- Python `str.split(sep, 1)` for a one-character separator, on a string
that contains the separator: the part before the first occurrence and the
part after it. -/
def splitFirst (sep : Char) : List Char → List Char × List Char
  | [] => ([], [])
  | c :: rest =>
    if c = sep then ([], rest)
    else
      let p := splitFirst sep rest
      (c :: p.1, p.2)

/-- Replace the last element of a list (Python `xs[-1] = f(xs[-1])`);
the empty case is unreachable for `str.split` results, which are nonempty. -/
def modifyLast {α : Type} (f : α → α) : List α → List α
  | [] => []
  | [p] => [f p]
  | p :: ps => p :: modifyLast f ps

/-! ## Data model

JSON values as produced by Python's `json.loads`, entry drafts, the remote
store, changeset rows, and the traces of API calls and user-facing messages
a command run performs. -/

/-- A JSON value (result of `json.loads`).  Object fields keep their order. -/
inductive Json where
  | str (s : List Char)
  | num (n : Int)
  | bool (b : Bool)
  | null
  | arr (elems : List Json)
  | obj (fields : List (List Char × Json))

/-- An Entry Draft as built by the parsers in `cli.py`: the dict
`{'key': ..., 'value': ..., 'secure': ...}`.  `value` and `secure` are kept
as the JSON values the parsers store (the dotenv parser stores a string and
a bool; the structured-list parser stores whatever the input JSON held). -/
structure Draft where
  key : List Char
  value : Json
  secure : Json

/-- The remote entry store, as observable through `GET /api/entry/key`:
an association from entry key to the entry's stored `value` field.  A key
absent from the list is an entry the store does not have (the endpoint
returns a falsy body, which `cli.py` replaces with `{}`). -/
def Store : Type := List (List Char × Json)

/-- Look a key up in the store (first match wins). -/
def storeFind : Store → List Char → Option Json
  | [], _ => none
  | (k, v) :: rest, key => if k = key then some v else storeFind rest key

/-- `NboxEntryClient.get_entry_by_key` (`client.py`): strips leading
slashes from the key, then queries `GET /api/entry/key?v={key}`. -/
def get_entry_by_key (store : Store) (key : List Char) : Option Json :=
  storeFind store (lstripSlash key)

/-- A row of the changeset table rendered by `create_entries`
(`cli.py`): draft key (lowercased), the existing remote value (empty
string when the lookup found nothing), the draft's new value and its
secure flag. -/
structure Row where
  key : List Char
  old_value : Json
  new_value : Json
  secure : Json

/-- A remote API call issued through `NboxEntryClient`, with the arguments
the command passes it. -/
inductive ApiCall where
  | getEntryByKey (key : List Char)
  | batchCreate (body : List Draft)
  | createEntry (key value : List Char) (secure : Bool)
  | deleteEntry (key : List Char)

/-- A user-facing message printed by a command. -/
inductive Msg where
  | successCount (n : Nat)
  | createdMsg (key : List Char)
  | removedMsg (key : List Char)
  | errorMsg
  | cancelledMsg

/-- One observable event of a command run: an API call or a message. -/
inductive Event where
  | call (c : ApiCall)
  | msg (m : Msg)

/-- The observable outcome of a command run: the ordered trace of events
and the process exit code. -/
structure RunResult where
  events : List Event
  exitCode : Nat

/-- Whether an API call writes remote state (create, batch create, delete). -/
def ApiCall.isWrite : ApiCall → Bool
  | getEntryByKey _ => false
  | batchCreate _ => true
  | createEntry _ _ _ => true
  | deleteEntry _ => true

/-- The write calls of a trace, in order. -/
def writeCalls (evs : List Event) : List ApiCall :=
  evs.filterMap fun e =>
    match e with
    | Event.call c => if c.isWrite then some c else none
    | Event.msg _ => none

/-- The keys of the `get_entry_by_key` calls of a trace, in order. -/
def lookupCalls (evs : List Event) : List (List Char) :=
  evs.filterMap fun e =>
    match e with
    | Event.call (ApiCall.getEntryByKey k) => some k
    | _ => none

/-- The bodies of the batch-create calls of a trace, in order. -/
def batchBodies (evs : List Event) : List (List Draft) :=
  evs.filterMap fun e =>
    match e with
    | Event.call (ApiCall.batchCreate b) => some b
    | _ => none

/-! ## Key Normalizer -/

/-- The dotenv key transform of `_parse_env_file` (`cli.py`, line 253):
`key.strip().lower().replace("_", "-")`. -/
def dotenvKeyTransform (k : List Char) : List Char :=
  underToDash (pyLower (pyStrip k))

/-- The structured-list key transform of `_parse_nbox_json` (`cli.py`,
lines 310 and 315): `entry["key"].lstrip("/")` followed by `key.lower()`. -/
def nboxKeyTransform (k : List Char) : List Char :=
  pyLower (lstripSlash k)

/-! ## Dotenv Parser (`_parse_env_file`, `cli.py` lines 240–291) -/

/-- Python `value[1:-1]` quote stripping: remove one layer of surrounding
double quotes, else one layer of surrounding single quotes, else keep. -/
def stripQuotes (v : List Char) : List Char :=
  if v.head? = some '"' ∧ v.getLast? = some '"' then (v.drop 1).dropLast
  else if v.head? = some '\'' ∧ v.getLast? = some '\'' then (v.drop 1).dropLast
  else v

/-- The line loop of `_parse_env_file`: strip each line, skip empty lines
and lines starting with `#`, skip lines without `=`, split the rest on the
first `=`, normalize the key and strip/unquote the value; yields the
`{'env_key': ..., 'value': ...}` pairs in line order. -/
def parseEnvLoop : List (List Char) → List (List Char × List Char)
  | [] => []
  | line :: rest =>
    let l := pyStrip line
    if l = [] then parseEnvLoop rest
    else if l.head? = some '#' then parseEnvLoop rest
    else if l.contains '=' = false then parseEnvLoop rest
    else
      let kv := splitFirst '=' l
      (dotenvKeyTransform kv.1, stripQuotes (pyStrip kv.2)) :: parseEnvLoop rest

/-- `_parse_env_file(content, nbox_path)`.  The interactive checkbox prompt
is the external collaborator `promptAnswer` (`None` models a cancelled
prompt).  Returns the drafts together with whether the prompt was invoked:
when no candidate entries were parsed the function returns `[]` before
prompting. -/
def parse_env_file (content nbox_path : List Char)
    (promptAnswer : Option (List (List Char))) : List Draft × Bool :=
  let lines := splitOnChar '\n' (pyStrip content)
  let entries := parseEnvLoop lines
  if entries = [] then ([], false)
  else
    let secure_keys := promptAnswer.getD []
    (entries.map fun e =>
      { key := rstripSlash nbox_path ++ '/' :: e.1,
        value := Json.str e.2,
        secure := Json.bool (secure_keys.contains e.1) }, true)

/-! ## Structured-List Parser (`_parse_nbox_json`, `cli.py` lines 294–320) -/

/-- How a `_parse_nbox_json` run can fail.  The first two are handled
failures: `typer.secho` prints a user-facing message and `typer.Exit(code=1)`
ends the process with exit code 1.  `attributeError` is the unhandled
`AttributeError` raised by `entry["key"].lower()` when the `key` field is
not a string (the `isinstance` guard on line 310 passes the non-string
value through unchanged, and line 315 calls `.lower()` on it): the process
dies with a traceback, not a user-facing message. -/
inductive ParseFailure where
  | unsupportedFormat
  | missingFields
  | attributeError
deriving DecidableEq

/-- Field lookup in a parsed JSON object (Python `entry["k"]` /
`"k" in entry`). -/
def objGet : List (List Char × Json) → List Char → Option Json
  | [], _ => none
  | (k, v) :: rest, key => if k = key then some v else objGet rest key

/-- One element of the structured list: require `key` and `value` fields,
then normalize the key — `lstrip("/")` and `.lower()` for a string key,
an unhandled `AttributeError` for a non-string key — and default `secure`
to `False`. -/
def parseNboxItem (fields : List (List Char × Json)) : Except ParseFailure Draft :=
  match objGet fields ['k','e','y'], objGet fields ['v','a','l','u','e'] with
  | some kj, some v =>
    match kj with
    | Json.str s =>
      Except.ok { key := nboxKeyTransform s, value := v,
                  secure := (objGet fields ['s','e','c','u','r','e']).getD (Json.bool false) }
    | _ => Except.error ParseFailure.attributeError
  | _, _ => Except.error ParseFailure.missingFields

/-- The element loop of `_parse_nbox_json`: each element must be an object,
else the handled `Unsupported JSON format` failure. -/
def parseNboxList : List Json → Except ParseFailure (List Draft)
  | [] => Except.ok []
  | Json.obj fields :: rest => do
    let d ← parseNboxItem fields
    let ds ← parseNboxList rest
    Except.ok (d :: ds)
  | _ :: _ => Except.error ParseFailure.unsupportedFormat

/-- `_parse_nbox_json(content)` on the parsed JSON: the root must be a
list, else the handled `Unsupported JSON format` failure. -/
def parse_nbox_json : Json → Except ParseFailure (List Draft)
  | Json.arr elems => parseNboxList elems
  | _ => Except.error ParseFailure.unsupportedFormat

/-! ## Diff/Changeset Builder and Import Orchestrator
(`create_entries`, `cli.py` lines 323–406) -/

/-- The lookup key computed inside the changeset loop (`cli.py` lines
370–375): lowercase the draft key, split on `/`, replace `-` with `_` in
the last path segment, and rejoin. -/
def lookupKey (draftKey : List Char) : List Char :=
  let key := pyLower draftKey
  let path_parts := splitOnChar '/' key
  joinChar '/' (modifyLast dashToUnder path_parts)

/-- One iteration of the changeset loop (`cli.py` lines 369–384): compute
the lookup key, fetch the existing entry (`or {}` turns a falsy response
into an empty dict), and build the table row with
`old_entry.get("value", "")` as the old value. -/
def changesetRow (store : Store) (d : Draft) : Row :=
  let key := pyLower d.key
  let path_parts := splitOnChar '/' key
  let existing_key_name := joinChar '/' (modifyLast dashToUnder path_parts)
  let old_entry := get_entry_by_key store existing_key_name
  { key := key,
    old_value := old_entry.getD (Json.str []),
    new_value := d.value,
    secure := d.secure }

/-- The changeset loop: one row and one `get_entry_by_key` call per draft,
in input order. -/
def buildChangeset (store : Store) : List Draft → List Row × List Event
  | [] => ([], [])
  | d :: rest =>
    let key := pyLower d.key
    let path_parts := splitOnChar '/' key
    let existing_key_name := joinChar '/' (modifyLast dashToUnder path_parts)
    let rec_result := buildChangeset store rest
    ({ key := key,
       old_value := (get_entry_by_key store existing_key_name).getD (Json.str []),
       new_value := d.value,
       secure := d.secure } :: rec_result.1,
     Event.call (ApiCall.getEntryByKey existing_key_name) :: rec_result.2)

/-- The `create_entries` command after parsing (`cli.py` lines 366–406),
as a function of the parsed drafts and the external collaborators: the
remote store, whether `--no--changeset` was passed, the user's answer at
the confirmation gate, and whether the batch POST succeeds.  Mirrors the
code's control flow exactly: the changeset loop runs first (unless
skipped), the confirmation gate cancels with exit code 0, and the apply
step prints the success message, then issues the single batch-create call,
and on failure prints the error and exits 1. -/
def create_entries_run (store : Store) (data : List Draft)
    (no_changeset confirm postOk : Bool) : RunResult :=
  let lookupEvents := if no_changeset then [] else (buildChangeset store data).2
  if confirm = false then
    { events := lookupEvents ++ [Event.msg Msg.cancelledMsg], exitCode := 0 }
  else
    let applyEvents := [Event.msg (Msg.successCount data.length),
                        Event.call (ApiCall.batchCreate data)]
    if postOk then
      { events := lookupEvents ++ applyEvents, exitCode := 0 }
    else
      { events := lookupEvents ++ applyEvents ++ [Event.msg Msg.errorMsg],
        exitCode := 1 }

/-- The `create_entry` command (`cli.py` lines 188–237): look up the
existing entry (failures there are swallowed), render, confirm (a `no`
answer cancels with exit code 0), then issue the single-entry create and
report success after it completes. -/
def create_entry_run (store : Store) (key value : List Char) (secure : Bool)
    (confirm postOk : Bool) : RunResult :=
  let lookupEvents := [Event.call (ApiCall.getEntryByKey key)]
  if confirm = false then
    { events := lookupEvents ++ [Event.msg Msg.cancelledMsg], exitCode := 0 }
  else if postOk then
    { events := lookupEvents ++ [Event.call (ApiCall.createEntry key value secure),
                                 Event.msg (Msg.createdMsg key)], exitCode := 0 }
  else
    { events := lookupEvents ++ [Event.call (ApiCall.createEntry key value secure),
                                 Event.msg Msg.errorMsg], exitCode := 1 }

/-- The `remove_entry` command (`cli.py` lines 409–464): look up the entry
(a missing entry is an error before any gate), then — with confirmation
enabled — render, confirm (a `no` answer cancels with exit code 0), and
delete. -/
def remove_entry_run (store : Store) (key : List Char)
    (delete_confirmation confirm postOk : Bool) : RunResult :=
  let lookupEvents := [Event.call (ApiCall.getEntryByKey key)]
  match get_entry_by_key store key with
  | none => { events := lookupEvents ++ [Event.msg Msg.errorMsg], exitCode := 1 }
  | some _ =>
    if delete_confirmation then
      if confirm = false then
        { events := lookupEvents ++ [Event.msg Msg.cancelledMsg], exitCode := 0 }
      else if postOk then
        { events := lookupEvents ++ [Event.call (ApiCall.deleteEntry key),
                                     Event.msg (Msg.removedMsg key)], exitCode := 0 }
      else
        { events := lookupEvents ++ [Event.call (ApiCall.deleteEntry key),
                                     Event.msg Msg.errorMsg], exitCode := 1 }
    else if postOk then
      { events := lookupEvents ++ [Event.call (ApiCall.deleteEntry key),
                                   Event.msg (Msg.removedMsg key)], exitCode := 0 }
    else
      { events := lookupEvents ++ [Event.call (ApiCall.deleteEntry key),
                                   Event.msg Msg.errorMsg], exitCode := 1 }

/-! ## The dotenv parser as the specification words it

A second definition of the dotenv parser, following the specification's
sentence-by-sentence description, to compare against `parse_env_file`
above (which follows the code). -/

/-- One line, as the specification describes it: skip blank lines and
lines starting with `#`, skip lines containing no `=`, split the rest on
the first `=` only, trim whitespace from key and value, lowercase the key
and replace `_` with `-`, and strip one layer of matching surrounding
double or single quotes from the value. -/
def dotenvSpecLine (line : List Char) : Option (List Char × List Char) :=
  let l := pyStrip line
  if l = [] ∨ l.head? = some '#' then none
  else if l.contains '=' = false then none
  else
    let kv := splitFirst '=' l
    some (underToDash (pyLower (pyStrip kv.1)), stripQuotes (pyStrip kv.2))

/-- The drafts, as the specification describes them: each processed line
yields the draft key `{basePath}/{envKey}` with any trailing `/` stripped
from the base path, the unquoted value, and a secure flag from the
interactive selection (empty when the prompt was cancelled). -/
def dotenvSpecDrafts (content basePath : List Char)
    (secureSelection : Option (List (List Char))) : List Draft :=
  ((splitOnChar '\n' (pyStrip content)).filterMap dotenvSpecLine).map fun e =>
    { key := rstripSlash basePath ++ '/' :: e.1,
      value := Json.str e.2,
      secure := Json.bool ((secureSelection.getD []).contains e.1) }

/-- The one-draft input used to evaluate the apply step's message order. -/
def c9draft : Draft :=
  { key := "a".toList, value := Json.str "v".toList, secure := Json.bool false }

/-! ## Character-level lemmas -/

theorem char_toNat_inj {a b : Char} (h : a.toNat = b.toNat) : a = b :=
  Char.ext (UInt32.ext h)

theorem char_eq_iff_toNat (a b : Char) : a = b ↔ a.toNat = b.toNat :=
  ⟨fun h => by rw [h], char_toNat_inj⟩

theorem toNat_ofNat_small (n : Nat) (h : n < 0xd800) : (Char.ofNat n).toNat = n := by
  have hv : n.isValidChar := Or.inl h
  simp [Char.ofNat, hv, Char.ofNatAux, Char.toNat, UInt32.toNat, UInt32.ofNatCore]

theorem lowerChar_idem (c : Char) : lowerChar (lowerChar c) = lowerChar c := by
  unfold lowerChar
  by_cases h : 65 ≤ c.toNat ∧ c.toNat ≤ 90
  · rw [if_pos h]
    have h2 : (Char.ofNat (c.toNat + 32)).toNat = c.toNat + 32 :=
      toNat_ofNat_small _ (by omega)
    rw [if_neg (by rw [h2]; omega)]
  · rw [if_neg h, if_neg h]

/-- Lowercasing never produces an underscore from a non-underscore. -/
theorem lowerChar_eq_underscore (c : Char) : lowerChar c = '_' ↔ c = '_' := by
  constructor
  · intro h
    unfold lowerChar at h
    by_cases hc : 65 ≤ c.toNat ∧ c.toNat ≤ 90
    · rw [if_pos hc] at h
      have := congrArg Char.toNat h
      rw [toNat_ofNat_small _ (by omega)] at this
      have hu : ('_').toNat = 95 := rfl
      rw [hu] at this
      omega
    · rwa [if_neg hc] at h
  · intro h; subst h; decide

/-- Lowercasing never produces a slash from a non-slash. -/
theorem lowerChar_eq_slash (c : Char) : lowerChar c = '/' ↔ c = '/' := by
  constructor
  · intro h
    unfold lowerChar at h
    by_cases hc : 65 ≤ c.toNat ∧ c.toNat ≤ 90
    · rw [if_pos hc] at h
      have := congrArg Char.toNat h
      rw [toNat_ofNat_small _ (by omega)] at this
      have hs : ('/').toNat = 47 := rfl
      rw [hs] at this
      omega
    · rwa [if_neg hc] at h
  · intro h; subst h; decide

theorem beq_slash_lowerChar (c : Char) : (lowerChar c == '/') = (c == '/') := by
  by_cases h : c = '/'
  · subst h; decide
  · have h2 : lowerChar c ≠ '/' := fun hh => h ((lowerChar_eq_slash c).mp hh)
    simp [h, h2]

/-- The whitespace test, characterized on codepoints. -/
theorem isPyWs_toNat (c : Char) :
    isPyWs c = (c.toNat = 32 || c.toNat = 9 || c.toNat = 10 || c.toNat = 13 ||
      c.toNat = 11 || c.toNat = 12) := by
  unfold isPyWs
  simp only [char_eq_iff_toNat]
  rfl

/-- The dotenv key map (lowercase then `_`→`-`) preserves whitespace-ness. -/
theorem isPyWs_underToDash_lowerChar (c : Char) :
    isPyWs (underToDashChar (lowerChar c)) = isPyWs c := by
  by_cases hu : lowerChar c = '_'
  · have hc : c = '_' := (lowerChar_eq_underscore c).mp hu
    subst hc; decide
  · rw [underToDashChar, if_neg hu]
    unfold lowerChar
    by_cases h : 65 ≤ c.toNat ∧ c.toNat ≤ 90
    · rw [if_pos h, isPyWs_toNat, isPyWs_toNat,
        toNat_ofNat_small _ (by omega)]
      have : (decide (c.toNat + 32 = 32) = decide (c.toNat = 32)) ∧
          (decide (c.toNat + 32 = 9) = decide (c.toNat = 9)) ∧
          (decide (c.toNat + 32 = 10) = decide (c.toNat = 10)) ∧
          (decide (c.toNat + 32 = 13) = decide (c.toNat = 13)) ∧
          (decide (c.toNat + 32 = 11) = decide (c.toNat = 11)) ∧
          (decide (c.toNat + 32 = 12) = decide (c.toNat = 12)) := by
        refine ⟨?_, ?_, ?_, ?_, ?_, ?_⟩ <;> exact decide_eq_decide.mpr (by omega)
      rw [this.1, this.2.1, this.2.2.1, this.2.2.2.1, this.2.2.2.2.1, this.2.2.2.2.2]
    · rw [if_neg h]

theorem underToDashChar_lowerChar_idem (c : Char) :
    underToDashChar (lowerChar (underToDashChar (lowerChar c))) =
      underToDashChar (lowerChar c) := by
  by_cases h : lowerChar c = '_'
  · rw [h]; decide
  · have hin : underToDashChar (lowerChar c) = lowerChar c := by
      rw [underToDashChar, if_neg h]
    rw [hin, lowerChar_idem, hin]

/-! ## List-level lemmas -/

theorem dropWhile_cons_false {α : Type} {p : α → Bool} {c : α} {w : List α}
    (h : List.dropWhile p (c :: w) = c :: w) : p c = false := by
  cases hpc : p c with
  | false => rfl
  | true =>
    rw [List.dropWhile_cons, if_pos hpc] at h
    have hlen := congrArg List.length h
    have hle : (List.dropWhile p w).length ≤ w.length :=
      (List.dropWhile_suffix p).length_le
    simp at hlen
    omega

theorem dropWhile_of_eq_self_of_append {α : Type} {p : α → Bool} {y t z : List α}
    (h : List.dropWhile p z = z) (hz : y ++ t = z) : List.dropWhile p y = y := by
  cases y with
  | nil => rfl
  | cons c y' =>
    have hc : p c = false := by
      subst hz
      exact dropWhile_cons_false h
    rw [List.dropWhile_cons, if_neg (by simp [hc])]

theorem pyStrip_of_map (f : Char → Char) (h : ∀ c, isPyWs (f c) = isPyWs c)
    (s : List Char) : pyStrip (List.map f s) = List.map f (pyStrip s) := by
  unfold pyStrip
  have hfn : (isPyWs ∘ f) = isPyWs := funext h
  rw [List.dropWhile_map, hfn, ← List.map_reverse, List.dropWhile_map, hfn,
    ← List.map_reverse]

theorem pyStrip_idem (s : List Char) : pyStrip (pyStrip s) = pyStrip s := by
  have ha : List.dropWhile isPyWs (List.dropWhile isPyWs s) = List.dropWhile isPyWs s :=
    List.dropWhile_idempotent _ _
  have hy : (pyStrip s).reverse =
      List.dropWhile isPyWs (List.dropWhile isPyWs s).reverse := by
    unfold pyStrip; rw [List.reverse_reverse]
  obtain ⟨t, ht⟩ := List.dropWhile_suffix (l := (List.dropWhile isPyWs s).reverse) isPyWs
  have happ : pyStrip s ++ t.reverse = List.dropWhile isPyWs s := by
    have h2 := congrArg List.reverse ht
    rw [List.reverse_append, List.reverse_reverse, ← hy, List.reverse_reverse] at h2
    exact h2
  have hstep1 := dropWhile_of_eq_self_of_append ha happ
  show ((List.dropWhile isPyWs (pyStrip s)).reverse.dropWhile isPyWs).reverse = pyStrip s
  rw [hstep1, hy, List.dropWhile_idempotent, ← hy, List.reverse_reverse]

theorem splitOnChar_ne_nil (sep : Char) (s : List Char) : splitOnChar sep s ≠ [] := by
  cases s with
  | nil => simp [splitOnChar]
  | cons c rest =>
    unfold splitOnChar
    cases h : splitOnChar sep rest with
    | nil => simp
    | cons p ps => dsimp; split <;> simp

theorem modifyLast_append_singleton {α : Type} (f : α → α) (ps : List α) (l : α) :
    modifyLast f (ps ++ [l]) = ps ++ [f l] := by
  induction ps with
  | nil => rfl
  | cons p ps ih =>
    cases ps with
    | nil => rfl
    | cons q qs =>
      show p :: modifyLast f ((q :: qs) ++ [l]) = p :: ((q :: qs) ++ [f l])
      rw [ih]

/-! ## Trace lemmas -/

theorem buildChangeset_snd (store : Store) (data : List Draft) :
    (buildChangeset store data).2 =
      data.map fun d => Event.call (ApiCall.getEntryByKey (lookupKey d.key)) := by
  induction data with
  | nil => rfl
  | cons d rest ih => simp only [buildChangeset, lookupKey, ih, List.map_cons]

theorem buildChangeset_fst (store : Store) (data : List Draft) :
    (buildChangeset store data).1 = data.map (changesetRow store) := by
  induction data with
  | nil => rfl
  | cons d rest ih => simp only [buildChangeset, changesetRow, List.map_cons, ih]

theorem lookupCalls_append (a b : List Event) :
    lookupCalls (a ++ b) = lookupCalls a ++ lookupCalls b :=
  List.filterMap_append a b _

theorem writeCalls_append (a b : List Event) :
    writeCalls (a ++ b) = writeCalls a ++ writeCalls b :=
  List.filterMap_append a b _

theorem batchBodies_append (a b : List Event) :
    batchBodies (a ++ b) = batchBodies a ++ batchBodies b :=
  List.filterMap_append a b _

theorem lookupCalls_lookupEvents (data : List Draft) :
    lookupCalls (data.map fun d => Event.call (ApiCall.getEntryByKey (lookupKey d.key)))
      = data.map fun d => lookupKey d.key := by
  induction data with
  | nil => rfl
  | cons d rest ih => simp only [List.map_cons, lookupCalls, List.filterMap_cons] at ih ⊢; rw [ih]

theorem writeCalls_lookupEvents (data : List Draft) :
    writeCalls (data.map fun d => Event.call (ApiCall.getEntryByKey (lookupKey d.key)))
      = [] := by
  induction data with
  | nil => rfl
  | cons d rest ih => simp only [List.map_cons, writeCalls, List.filterMap_cons] at ih ⊢
                      simpa [ApiCall.isWrite] using ih

theorem batchBodies_lookupEvents (data : List Draft) :
    batchBodies (data.map fun d => Event.call (ApiCall.getEntryByKey (lookupKey d.key)))
      = [] := by
  induction data with
  | nil => rfl
  | cons d rest ih => simp only [List.map_cons, batchBodies, List.filterMap_cons] at ih ⊢
                      simpa using ih

theorem parseEnvLoop_eq_filterMap (lines : List (List Char)) :
    parseEnvLoop lines = lines.filterMap dotenvSpecLine := by
  induction lines with
  | nil => rfl
  | cons line rest ih =>
    by_cases h1 : pyStrip line = []
    · simp [parseEnvLoop, dotenvSpecLine, h1, ih]
    · by_cases h2 : (pyStrip line).head? = some '#'
      · simp [parseEnvLoop, dotenvSpecLine, h1, h2, ih]
      · by_cases h3 : '=' ∈ pyStrip line
        · simp [parseEnvLoop, dotenvSpecLine, h1, h2, h3, ih, dotenvKeyTransform]
        · simp [parseEnvLoop, dotenvSpecLine, h1, h2, h3, ih]

theorem parseEnvLoop_nil_of_skip (lines : List (List Char))
    (h : ∀ line ∈ lines, pyStrip line = [] ∨ (pyStrip line).head? = some '#'
      ∨ (pyStrip line).contains '=' = false) :
    parseEnvLoop lines = [] := by
  induction lines with
  | nil => rfl
  | cons line rest ih =>
    have hl := h line (by simp)
    have hr : ∀ l ∈ rest, pyStrip l = [] ∨ (pyStrip l).head? = some '#'
        ∨ (pyStrip l).contains '=' = false := fun l hm => h l (by simp [hm])
    by_cases h1 : pyStrip line = []
    · simp [parseEnvLoop, h1, ih hr]
    · by_cases h2 : (pyStrip line).head? = some '#'
      · simp [parseEnvLoop, h1, h2, ih hr]
      · have h3 : (pyStrip line).contains '=' = false := by
          rcases hl with hx | hx | hx
          · exact absurd hx h1
          · exact absurd hx h2
          · exact hx
        have h3' : ¬ '=' ∈ pyStrip line := by
          intro hm
          rw [← List.elem_iff] at hm
          have hf : List.elem '=' (pyStrip line) = false := h3
          rw [hf] at hm
          exact Bool.noConfusion hm
        simp [parseEnvLoop, h1, h2, h3, h3', ih hr]

/-! ## The claims -/

/-- **C1.** For every Entry Draft processed in changeset mode, the lookup
key used to fetch the existing remote entry is the draft key lowercased,
split on `/`, with `-` replaced by `_` in the last path segment only (all
earlier segments unchanged); the subsequent batch write submits the drafts
unmodified.  In particular draft key `app/db-host` is looked up as
`app/db_host` but written as `app/db-host`. -/
theorem C1_lookup_key_transform :
    (∀ (store : Store) (data : List Draft) (confirm postOk : Bool),
      lookupCalls (create_entries_run store data false confirm postOk).events
        = data.map fun d => lookupKey d.key)
    ∧ (∀ k : List Char, ∃ ps l, splitOnChar '/' (pyLower k) = ps ++ [l]
        ∧ lookupKey k = joinChar '/' (ps ++ [dashToUnder l]))
    ∧ (∀ (store : Store) (data : List Draft) (postOk : Bool),
      batchBodies (create_entries_run store data false true postOk).events = [data])
    ∧ lookupKey ("app/db-host".toList) = "app/db_host".toList := by
  refine ⟨?_, ?_, ?_, by decide⟩
  · intro store data confirm postOk
    cases confirm <;> cases postOk <;>
      · simp only [create_entries_run, Bool.false_eq_true, Bool.true_eq_false,
          if_true, if_false, ite_true, ite_false, reduceIte]
        simp only [lookupCalls_append, buildChangeset_snd, lookupCalls_lookupEvents]
        simp [lookupCalls]
  · intro k
    have hne := splitOnChar_ne_nil '/' (pyLower k)
    obtain ⟨ps, l, hdecomp⟩ : ∃ ps l, splitOnChar '/' (pyLower k) = ps ++ [l] :=
      ⟨_, _, (List.dropLast_append_getLast hne).symm⟩
    refine ⟨ps, l, hdecomp, ?_⟩
    show joinChar '/' (modifyLast dashToUnder (splitOnChar '/' (pyLower k))) = _
    rw [hdecomp, modifyLast_append_singleton]
  · intro store data postOk
    cases postOk <;>
      · simp only [create_entries_run, Bool.false_eq_true, Bool.true_eq_false,
          if_true, if_false, ite_true, ite_false, reduceIte]
        simp only [batchBodies_append, buildChangeset_snd, batchBodies_lookupEvents]
        simp [batchBodies]

/-- **C2.** The dotenv parser, for every input text and non-empty base
path, agrees with the specification's description: skip blank and `#`
lines and lines with no `=`, split the rest on the first `=` only, trim
whitespace from key and value, lowercase the key and replace `_` with `-`,
strip one layer of matching surrounding quotes from the value, and build
the draft key `{basePath}/{envKey}` with trailing `/` stripped from the
base path. -/
theorem C2_dotenv_parsing (content basePath : List Char)
    (promptAnswer : Option (List (List Char))) (h : basePath ≠ []) :
    (parse_env_file content basePath promptAnswer).1 =
      dotenvSpecDrafts content basePath promptAnswer := by
  simp only [parse_env_file, dotenvSpecDrafts]
  rw [parseEnvLoop_eq_filterMap]
  by_cases he : (splitOnChar '\n' (pyStrip content)).filterMap dotenvSpecLine = []
  · simp [he]
  · simp [he]

/-- Witness for C2 at the specification's own example: input
`FOO_BAR="baz"` with base path `app/env` gives draft key
`app/env/foo-bar` and value `baz` (quotes stripped), and the parser agrees
with the specification-side definition there. -/
theorem C2_dotenv_parsing_witness :
    ("app/env".toList ≠ [] ∧
      (parse_env_file ("FOO_BAR=\"baz\"".toList) ("app/env".toList) (some [])).1 =
        dotenvSpecDrafts ("FOO_BAR=\"baz\"".toList) ("app/env".toList) (some []))
    ∧ (parse_env_file ("FOO_BAR=\"baz\"".toList) ("app/env".toList) (some [])).1 =
        [{ key := "app/env/foo-bar".toList, value := Json.str ("baz".toList),
           secure := Json.bool false }] :=
  ⟨⟨by decide, C2_dotenv_parsing _ _ _ (by decide)⟩, rfl⟩

/-- **C3.** Key normalization is idempotent for both parsers: the dotenv
key transform (trim, lowercase, replace `_` with `-`) and the
structured-list key transform (strip leading `/`, lowercase) each equal
their own square. -/
theorem C3_normalization_idem :
    (∀ k : List Char,
      dotenvKeyTransform (dotenvKeyTransform k) = dotenvKeyTransform k)
    ∧ (∀ k : List Char,
      nboxKeyTransform (nboxKeyTransform k) = nboxKeyTransform k) := by
  constructor
  · intro k
    have hmap : ∀ x : List Char,
        underToDash (pyLower x) = List.map (underToDashChar ∘ lowerChar) x := by
      intro x; unfold underToDash pyLower; rw [List.map_map]
    unfold dotenvKeyTransform
    rw [hmap, hmap,
      pyStrip_of_map (underToDashChar ∘ lowerChar)
        (fun c => isPyWs_underToDash_lowerChar c),
      pyStrip_idem, List.map_map]
    have hcomp : ((underToDashChar ∘ lowerChar) ∘ (underToDashChar ∘ lowerChar))
        = (underToDashChar ∘ lowerChar) :=
      funext fun c => underToDashChar_lowerChar_idem c
    rw [hcomp]
  · intro k
    unfold nboxKeyTransform pyLower lstripSlash
    rw [List.dropWhile_map]
    have hq : ((fun c => c == '/') ∘ lowerChar) = (fun c => c == '/') :=
      funext fun c => beq_slash_lowerChar c
    rw [hq, List.dropWhile_idempotent, List.map_map]
    have hl : (lowerChar ∘ lowerChar) = lowerChar := funext lowerChar_idem
    rw [hl]

/-- **C4.** For every list of N drafts, the bulk import performs zero
`get_entry_by_key` lookups with `--no--changeset`, and exactly N lookups,
one per draft in input order, in changeset mode. -/
theorem C4_lookup_counts :
    (∀ (store : Store) (data : List Draft) (confirm postOk : Bool),
      lookupCalls (create_entries_run store data true confirm postOk).events = [])
    ∧ (∀ (store : Store) (data : List Draft) (confirm postOk : Bool),
      (lookupCalls (create_entries_run store data false confirm postOk).events).length
        = data.length
      ∧ lookupCalls (create_entries_run store data false confirm postOk).events
        = data.map fun d => lookupKey d.key) := by
  constructor
  · intro store data confirm postOk
    cases confirm <;> cases postOk <;>
      simp [create_entries_run, lookupCalls_append, lookupCalls]
  · intro store data confirm postOk
    have hev : lookupCalls (create_entries_run store data false confirm postOk).events
        = data.map fun d => lookupKey d.key := by
      cases confirm <;> cases postOk <;>
        · simp only [create_entries_run, Bool.false_eq_true, Bool.true_eq_false,
            if_true, if_false, ite_true, ite_false, reduceIte]
          simp only [lookupCalls_append, buildChangeset_snd, lookupCalls_lookupEvents]
          simp [lookupCalls]
    exact ⟨by rw [hev, List.length_map], hev⟩

/-- **C5.** For every confirmed bulk import, the apply step's write trace
is exactly one batch-create call containing the full draft list: never one
call per entry. -/
theorem C5_single_batch_call (store : Store) (data : List Draft)
    (no_changeset postOk : Bool) :
    writeCalls (create_entries_run store data no_changeset true postOk).events
      = [ApiCall.batchCreate data] := by
  cases no_changeset <;> cases postOk
  case false.false | false.true =>
    simp only [create_entries_run, Bool.false_eq_true, Bool.true_eq_false,
      if_true, if_false, ite_true, ite_false, reduceIte]
    simp only [writeCalls_append, buildChangeset_snd, writeCalls_lookupEvents]
    simp [writeCalls, ApiCall.isWrite]
  case true.false | true.true =>
    simp [create_entries_run, writeCalls, ApiCall.isWrite]

/-- **C6.** Answering `no` at the confirmation gate of `create_entries`,
`create_entry`, or `remove_entry` performs zero write (create,
batch-create, delete) calls and exits with the cancellation code 0, not
the failure code 1. -/
theorem C6_cancellation :
    (∀ (store : Store) (data : List Draft) (no_changeset postOk : Bool),
      writeCalls (create_entries_run store data no_changeset false postOk).events = []
      ∧ (create_entries_run store data no_changeset false postOk).exitCode = 0)
    ∧ (∀ (store : Store) (key value : List Char) (secure postOk : Bool),
      writeCalls (create_entry_run store key value secure false postOk).events = []
      ∧ (create_entry_run store key value secure false postOk).exitCode = 0)
    ∧ (∀ (store : Store) (key : List Char) (postOk : Bool),
      (get_entry_by_key store key).isSome = true →
      writeCalls (remove_entry_run store key true false postOk).events = []
      ∧ (remove_entry_run store key true false postOk).exitCode = 0) := by
  refine ⟨?_, ?_, ?_⟩
  · intro store data no_changeset postOk
    cases no_changeset
    · constructor
      · simp only [create_entries_run, reduceIte]
        simp only [writeCalls_append, buildChangeset_snd, writeCalls_lookupEvents]
        simp [writeCalls, ApiCall.isWrite]
      · simp [create_entries_run]
    · constructor
      · simp [create_entries_run, writeCalls]
      · simp [create_entries_run]
  · intro store key value secure postOk
    constructor
    · simp [create_entry_run, writeCalls, ApiCall.isWrite]
    · simp [create_entry_run]
  · intro store key postOk h
    obtain ⟨v, hv⟩ := Option.isSome_iff_exists.mp h
    constructor
    · simp [remove_entry_run, hv, writeCalls, ApiCall.isWrite]
    · simp [remove_entry_run, hv]

/-- Witness for C6: concrete cancelled runs of all three commands perform
no writes and exit 0 (the `remove_entry` instance discharges the
entry-exists hypothesis at a one-entry store). -/
theorem C6_cancellation_witness :
    (writeCalls (create_entries_run [] [] true false true).events = []
      ∧ (create_entries_run [] [] true false true).exitCode = 0)
    ∧ (create_entry_run [] ("a".toList) ("v".toList) false false true).exitCode = 0
    ∧ writeCalls (remove_entry_run [(("a".toList), Json.str [])]
        ("a".toList) true false true).events = []
    ∧ (remove_entry_run [(("a".toList), Json.str [])]
        ("a".toList) true false true).exitCode = 0 :=
  ⟨C6_cancellation.1 [] [] true true,
   (C6_cancellation.2.1 [] ("a".toList) ("v".toList) false true).2,
   (C6_cancellation.2.2 [(("a".toList), Json.str [])] ("a".toList) true (by decide)).1,
   (C6_cancellation.2.2 [(("a".toList), Json.str [])] ("a".toList) true (by decide)).2⟩

/-- **C7.** Evaluating `_parse_nbox_json` at a structured list whose single
element has the non-string `key` field `5`: the parse fails with the
unhandled `AttributeError` from `entry["key"].lower()` — a process-killing
crash with a traceback — and not with either of the handled user-facing
failures the specification's `InvalidInputError` describes.  No drafts are
produced. -/
theorem C7_nonstring_key_crash :
    parse_nbox_json (Json.arr [Json.obj [(['k','e','y'], Json.num 5),
        (['v','a','l','u','e'], Json.str ['x'])]])
      = Except.error ParseFailure.attributeError
    ∧ ParseFailure.attributeError ≠ ParseFailure.unsupportedFormat
    ∧ ParseFailure.attributeError ≠ ParseFailure.missingFields :=
  ⟨rfl, by decide, by decide⟩

/-- **C8 counterexample.** With a remote entry whose stored value is the
empty string at the lookup key, the changeset row's `old_value` is empty
although a remote entry exists, refuting the claimed equivalence
(`old_value` empty iff no remote entry) at this input. -/
theorem C8_counterexample :
    ¬ ((((buildChangeset [("app/x".toList, Json.str [])]
          [{ key := "app/x".toList, value := Json.str "v".toList,
             secure := Json.bool false }]).1.head?.map Row.old_value)
          = some (Json.str []))
        ↔ (get_entry_by_key [("app/x".toList, Json.str [])]
            (lookupKey ("app/x".toList))).isSome = false) := by
  intro h
  exact absurd (h.mp rfl) (by decide)

/-- **C8 (amended).** A Changeset Row's `old_value` is empty when no remote
entry exists at the row's lookup key, and equals the remote entry's value
when one exists — so `old_value` is also empty when an existing entry's
value is itself the empty string, and emptiness is not equivalent to
absence. -/
theorem C8_old_value :
    (∀ (store : Store) (data : List Draft),
      (buildChangeset store data).1 = data.map (changesetRow store))
    ∧ (∀ (store : Store) (d : Draft),
      get_entry_by_key store (lookupKey d.key) = none →
        (changesetRow store d).old_value = Json.str [])
    ∧ (∀ (store : Store) (d : Draft) (v : Json),
      get_entry_by_key store (lookupKey d.key) = some v →
        (changesetRow store d).old_value = v) := by
  refine ⟨buildChangeset_fst, ?_, ?_⟩
  · intro store d hnone
    show ((get_entry_by_key store (lookupKey d.key)).getD (Json.str [])) = Json.str []
    rw [hnone]
    rfl
  · intro store d v hsome
    show ((get_entry_by_key store (lookupKey d.key)).getD (Json.str [])) = v
    rw [hsome]
    rfl

/-- Witness for C8 (amended): at an empty store the row's `old_value` is
the empty string, and at a store holding `old` at the lookup key the row's
`old_value` is `old`. -/
theorem C8_old_value_witness :
    (changesetRow []
      { key := "app/y".toList, value := Json.str "v".toList,
        secure := Json.bool false }).old_value = Json.str []
    ∧ (changesetRow [("app/z".toList, Json.str "old".toList)]
      { key := "app/z".toList, value := Json.str "new".toList,
        secure := Json.bool false }).old_value = Json.str "old".toList :=
  ⟨C8_old_value.2.1 [] _ rfl,
   C8_old_value.2.2 [("app/z".toList, Json.str "old".toList)] _ _ rfl⟩

/-- **C9.** Evaluating a confirmed one-draft bulk import whose batch POST
fails: `create_entries` prints the success message
`Entries created successfully: 1` BEFORE issuing the batch-create call
(the `typer.secho` on line 402 precedes the `create_entries` call on line
403 inside the `try` block), so the success report appears even though
the call then fails and the run exits 1 — success is not reported only in
the DONE state. -/
theorem C9_success_before_apply :
    (create_entries_run [] [c9draft] true true false).events
      = [Event.msg (Msg.successCount 1),
         Event.call (ApiCall.batchCreate [c9draft]),
         Event.msg Msg.errorMsg]
    ∧ (create_entries_run [] [c9draft] true true false).exitCode = 1 :=
  ⟨rfl, rfl⟩

/-- **C10.** When every line of the dotenv input is blank, a `#` comment,
or lacks an `=` separator, the parser returns the empty draft list and
never reaches the interactive secure-field prompt (the `Bool` component of
the result records whether the prompt was invoked). -/
theorem C10_all_lines_skipped (content nbox_path : List Char)
    (promptAnswer : Option (List (List Char)))
    (h : ∀ line ∈ splitOnChar '\n' (pyStrip content),
      pyStrip line = [] ∨ (pyStrip line).head? = some '#'
        ∨ (pyStrip line).contains '=' = false) :
    parse_env_file content nbox_path promptAnswer = ([], false) := by
  have hloop := parseEnvLoop_nil_of_skip _ h
  simp [parse_env_file, hloop]

/-- Witness for C10: a comment line, a blank line and a separator-free
line produce no drafts and no prompt. -/
theorem C10_all_lines_skipped_witness :
    parse_env_file ("# comment\n\nno equals here".toList) ("app".toList) none
      = ([], false) :=
  C10_all_lines_skipped _ _ _ (by decide)
